import Mathlib

/-!
Verification of the task-management LangGraph service.

Shallow embedding of the repository's core:
  app/graph/nodes.py   (call_llm, take_action, the streaming broadcaster hook)
  app/graph/graph.py   (should_continue, build_graph and the compiled graph's run loop)
  app/ws.py            (WebSocketManager: connect, execute_graph, cleanup_session)
  app/routes/chat.py   (POST /chat handler) with app/schemas.py (UserMessage, ChatResponse)
  app/services/task_service.py (TaskService.update_task_status) with app/models/task.py

Python dicts are modelled as ordered association lists (insertion order, unique
keys), datetimes as natural-number timestamps passed explicitly, UUIDs as
naturals/strings, raised exceptions as `Except.error`, and the LLM as an
explicit function from the message list it is shown to the response it returns.
-/

namespace TaskRag

/-- One entry of an AIMessage's `tool_calls` list: tool name, the argument
mapping, and the call id. -/
structure ToolCall where
  name : String
  args : List (String × String)
  id : String
  deriving Repr, DecidableEq

/-- The langchain message union used by the graph: SystemMessage, HumanMessage,
AIMessage (content plus tool calls) and ToolMessage (content plus the
`tool_call_id` it answers). -/
inductive Message where
  | system (content : String)
  | human (content : String)
  | ai (content : String) (tool_calls : List ToolCall)
  | tool (content : String) (tool_call_id : String)
  deriving Repr, DecidableEq

/-- The `content` attribute common to all message classes. -/
def Message.contentOf : Message → String
  | Message.system c => c
  | Message.human c => c
  | Message.ai c _ => c
  | Message.tool c _ => c

/-- Whether a message is a SystemMessage (`isinstance(m, SystemMessage)`). -/
def Message.isSystem : Message → Bool
  | Message.system _ => true
  | _ => false

/-- The `tool_call_id` of a ToolMessage, none for the other classes. -/
def Message.toolCallId : Message → Option String
  | Message.tool _ cid => some cid
  | _ => none

/-- One registered tool (app/graph/tools.py): its `name` and its `invoke`
function; a tool implementation that raises is modelled by `Except.error`. -/
structure Tool where
  name : String
  invoke : List (String × String) → Except String String

/-- The lookup loop of `take_action` (nodes.py lines 124-128): scan `TOOLS`
for the first tool whose name matches, none when absent. -/
def findTool (tools : List Tool) (tool_name : String) : Option Tool :=
  tools.find? (fun t => t.name == tool_name)

/-- The result text `take_action` computes for one tool call (nodes.py lines
130-138): a not-found error text when the name is not registered, the error
text when `invoke` raises, the tool's result otherwise. -/
def toolCallResult (tools : List Tool) (tc : ToolCall) : String :=
  match findTool tools tc.name with
  | none => "Error: Tool '" ++ tc.name ++ "' not found"
  | some tool_func =>
    match tool_func.invoke tc.args with
    | Except.ok r => r
    | Except.error e => "Error executing " ++ tc.name ++ ": " ++ e

/-- Embedding of `take_action` (nodes.py lines 98-147): if the last message is
an AIMessage with tool calls, produce one ToolMessage per call, in order, each
carrying that call's id; otherwise produce no messages. -/
def take_action (tools : List Tool) (messages : List Message) : List Message :=
  match messages.getLast? with
  | some (Message.ai _ tool_calls) =>
    if tool_calls.isEmpty then []
    else tool_calls.map (fun tc => Message.tool (toolCallResult tools tc) tc.id)
  | _ => []

/-- The routing result of `should_continue` (graph.py lines 12-29):
`retriever_agent` is the ACT node, `done` is langgraph's END. -/
inductive Route where
  | retriever_agent
  | done
  deriving Repr, DecidableEq

/-- Embedding of `should_continue` (graph.py lines 12-29): route to the ACT
node iff the last message is an AIMessage whose `tool_calls` is non-empty. -/
def should_continue (messages : List Message) : Route :=
  match messages.getLast? with
  | some (Message.ai _ tool_calls) =>
    if tool_calls.isEmpty then Route.done else Route.retriever_agent
  | _ => Route.done

/-- The system prompt of `call_llm` (nodes.py lines 47-63), abbreviated to its
first line; only its identity as the inserted SystemMessage matters here. -/
def system_prompt : String :=
  "You are a helpful AI task manager assistant. You can help users with: ..."

/-- The message-list preparation of `call_llm` (nodes.py lines 66-70): copy the
state's messages and insert the system prompt at position 0 unless the list
already starts with a SystemMessage. -/
def withSystemPrompt (messages : List Message) : List Message :=
  match messages with
  | [] => [Message.system system_prompt]
  | m :: _ =>
    if m.isSystem then messages else Message.system system_prompt :: messages

/-- What the bound LLM returns from one invocation: the response content and
the tool calls it carries. -/
structure LLMResponse where
  content : String
  tool_calls : List ToolCall
  deriving Repr, DecidableEq

/-- The language model as seen by `call_llm`: a function from the prepared
message list to the AIMessage it returns. -/
abbrev LLM := List Message → LLMResponse

/-- Embedding of `call_llm` (nodes.py lines 37-95): prepare the history with
the system prompt, invoke the model, and return the single response message
that langgraph's `add_messages` will append to the state. -/
def call_llm (llm : LLM) (messages : List Message) : List Message :=
  let response := llm (withSystemPrompt messages)
  [Message.ai response.content response.tool_calls]

/-- The two nodes of the compiled graph (graph.py lines 42-43): `llm` is the
REASON node and `retriever_agent` the ACT node. -/
inductive Node where
  | llm
  | retriever_agent
  deriving Repr, DecidableEq

/-- The error message of the graph runtime's GraphRecursionError. -/
def recursionErrorMessage : String :=
  "Recursion limit reached without hitting a stop condition"

/-- One yield of `graph.astream(initial_state)` in its default "updates"
stream mode: a dict with a single key, the name of the node that ran in that
superstep, mapped to that node's returned update (`{"messages": [...]}`).
`node` is that key ("llm" or "retriever_agent") and `messages` the node's
returned messages. The accumulated graph state itself is never yielded. -/
structure StreamUpdate where
  node : String
  messages : List Message
  deriving Repr, DecidableEq

/-- The outcome of iterating `graph.astream(initial_state)`: `updates` is the
sequence of updates-mode yields, one per superstep; `states` is the internal
accumulated message state after each superstep (the `add_messages` reducer's
value, kept here for invariant reasoning — it is not what the stream yields);
`error`, when the recursion limit is exhausted before END is reached, is the
exception raised after those yields. -/
structure RunResult where
  updates : List StreamUpdate
  states : List (List Message)
  error : Option String
  deriving Repr, DecidableEq

/-- Embedding of running the compiled graph of `build_graph` (graph.py lines
32-62): entry point `llm`; after `llm` route per `should_continue` to
`retriever_agent` or END; after `retriever_agent` always back to `llm`. Each
superstep appends the node's returned messages to the internal state (the
`add_messages` reducer) and yields the node-keyed update dict. `fuel` is the
runtime's recursion limit (default 25 supersteps); exhausting it raises
GraphRecursionError, modelled as the terminal `error`. -/
def runGraph (llm : LLM) (tools : List Tool) : Nat → Node → List Message → RunResult
  | 0, _, _ => ⟨[], [], some recursionErrorMessage⟩
  | fuel + 1, Node.llm, messages =>
    let s := messages ++ call_llm llm messages
    match should_continue s with
    | Route.done => ⟨[⟨"llm", call_llm llm messages⟩], [s], none⟩
    | Route.retriever_agent =>
      let r := runGraph llm tools fuel Node.retriever_agent s
      ⟨⟨"llm", call_llm llm messages⟩ :: r.updates, s :: r.states, r.error⟩
  | fuel + 1, Node.retriever_agent, messages =>
    let s := messages ++ take_action tools messages
    let r := runGraph llm tools fuel Node.llm s
    ⟨⟨"retriever_agent", take_action tools messages⟩ :: r.updates,
      s :: r.states, r.error⟩

/-- The per-message dict `execute_graph` builds for state_update and
final_result payloads (ws.py lines 180-187, 195-198): the message's class name
and its content. -/
structure MessageSummary where
  type : String
  content : String
  deriving Repr, DecidableEq

/-- The `__class__.__name__` of a message. -/
def Message.className : Message → String
  | Message.system _ => "SystemMessage"
  | Message.human _ => "HumanMessage"
  | Message.ai _ _ => "AIMessage"
  | Message.tool _ _ => "ToolMessage"

/-- The summary dict of one message. -/
def summarize (m : Message) : MessageSummary :=
  ⟨m.className, m.contentOf⟩

/-- The JSON frames the manager sends to the subscriber, by their `type`
discriminator (ws.py `broadcast_token`, `broadcast_event`,
`broadcast_final_result`, `broadcast_error`). -/
inductive Frame where
  | token (content : String)
  | event (event_type : String) (data : Option (List MessageSummary))
  | final_result (result : MessageSummary)
  | error (message : String)
  deriving Repr, DecidableEq

/-- Whether a frame is a final_result frame. -/
def Frame.isFinalResult : Frame → Bool
  | Frame.final_result _ => true
  | _ => false

/-- Whether a frame is an error frame. -/
def Frame.isError : Frame → Bool
  | Frame.error _ => true
  | _ => false

/-- Embedding of `state.get("messages", [])` at ws.py lines 185 and 192,
applied to an updates-mode yield: the yielded dict's only key is the name of
the node that ran ("llm" or "retriever_agent"), never "messages", so the
lookup misses and the default empty list is returned. -/
def streamGetMessages (u : StreamUpdate) : List Message :=
  if u.node = "messages" then u.messages else []

/-- The state_update event frame broadcast for one yield (ws.py lines
179-187): its data is the summary list of `state.get("messages", [])`, which
under updates-mode streaming is always the empty list. -/
def stateUpdateFrame (u : StreamUpdate) : Frame :=
  Frame.event "state_update" (some ((streamGetMessages u).map summarize))

/-- The final_result broadcast of `execute_graph` (ws.py lines 191-198): sent
only when something was yielded (`if final_state:` — a non-empty dict is
truthy) and `final_state.get("messages", [])` is non-empty
(`if final_messages:`), carrying the class name and content of its last
entry. Under updates-mode streaming that lookup is always empty, so this
branch never fires. -/
def finalResultFrames (updates : List StreamUpdate) : List Frame :=
  match updates.getLast? with
  | none => []
  | some u =>
    match (streamGetMessages u).getLast? with
    | none => []
    | some m => [Frame.final_result (summarize m)]

/-- Embedding of `WebSocketManager.execute_graph` (ws.py lines 144-206) for a
prepared session, as the ordered list of frames it sends to the subscriber:
an execution_started event, one state_update event per yield of
`graph.astream`, then (on normal completion) whatever `finalResultFrames`
produces followed by an execution_completed event; when the stream raises,
the yields before the exception have already been broadcast and the handler
of ws.py line 203 sends a single error frame and stops. No token frame
appears: `set_websocket_broadcaster` (nodes.py line 19) is never called
anywhere in the application, so `call_llm` installs no streaming callback. -/
def execute_graph (llm : LLM) (tools : List Tool) (fuel : Nat)
    (initial_state : List Message) : List Frame :=
  let r := runGraph llm tools fuel Node.llm initial_state
  match r.error with
  | some e =>
    Frame.event "execution_started" none :: r.updates.map stateUpdateFrame
      ++ [Frame.error e]
  | none =>
    Frame.event "execution_started" none :: r.updates.map stateUpdateFrame
      ++ finalResultFrames r.updates
      ++ [Frame.event "execution_completed" none]

/-- Ordered association list with string keys: the model of a Python dict.
`dictSet` is `d[k] = v` (overwrite in place, else append), `removeKey` is
`del d[k]`, `hasKey` is `k in d`. -/
def dictSet {α : Type} (d : List (String × α)) (k : String) (v : α) :
    List (String × α) :=
  if d.any (fun kv => kv.1 == k) then
    d.map (fun kv => if kv.1 == k then (k, v) else kv)
  else d ++ [(k, v)]

/-- Membership test of a Python dict. -/
def hasKey {α : Type} (d : List (String × α)) (k : String) : Bool :=
  d.any (fun kv => kv.1 == k)

/-- Key deletion of a Python dict. -/
def removeKey {α : Type} (d : List (String × α)) (k : String) :
    List (String × α) :=
  d.filter (fun kv => !(kv.1 == k))

/-- Lookup in a Python dict. -/
def dictGet {α : Type} (d : List (String × α)) (k : String) : Option α :=
  match d.find? (fun kv => kv.1 == k) with
  | some kv => some kv.2
  | none => none

/-- The mutable state of `WebSocketManager` (ws.py lines 20-24): the
`active_connections` dict (session id to WebSocket, each connection modelled
by a numeric handle) and the `sessions` dict (session id to its status
string; the other per-session fields play no role in the verified claims). -/
structure WSManager where
  active_connections : List (String × Nat)
  sessions : List (String × String)
  deriving Repr, DecidableEq

/-- Embedding of `WebSocketManager.connect` (ws.py lines 26-35): accept the
connection and register it under the session id with a plain dict assignment.
The operation has no failure outcome: it never rejects, and an already
registered connection for the same session id is silently replaced. -/
def WSManager.connect (m : WSManager) (websocket : Nat) (session_id : String) :
    WSManager :=
  { m with active_connections := dictSet m.active_connections session_id websocket }

/-- Embedding of `WebSocketManager.cleanup_session` (ws.py lines 228-258):
False when the session id is not in `sessions`; otherwise cancel the
session's task, delete the session entry, close and delete any registered
connection, and return True. -/
def WSManager.cleanup_session (m : WSManager) (session_id : String) :
    Bool × WSManager :=
  if hasKey m.sessions session_id then
    (true,
      { active_connections := removeKey m.active_connections session_id,
        sessions := removeKey m.sessions session_id })
  else
    (false, m)

/-- The fields of the `ChatResponse` pydantic model (schemas.py lines 53-57):
`message_id` and `session_id` are required, `status` defaults to
"processing". -/
structure ChatResponse where
  message_id : String
  session_id : String
  status : String
  deriving Repr, DecidableEq

/-- Pydantic validation of a `ChatResponse(...)` constructor call, over the
keyword arguments passed: an extra keyword that names no declared field is
ignored (the default `extra` policy), a missing required field raises a
ValidationError, and an omitted `status` takes its declared default. -/
def chatResponseInit (kwargs : List (String × String)) :
    Except String ChatResponse :=
  match dictGet kwargs "message_id", dictGet kwargs "session_id" with
  | some mid, some sid =>
    Except.ok ⟨mid, sid, (dictGet kwargs "status").getD "processing"⟩
  | _, _ =>
    Except.error "1 validation error for ChatResponse: message_id field required"

/-- The request-schema check FastAPI applies to `UserMessage.message`
(schemas.py line 49) before the handler runs: length between 1 and 4000. A
body failing it is answered 422 by the validation handler (main.py lines
137-154), the route handler never runs. -/
def userMessageValid (message : String) : Bool :=
  1 ≤ message.length && message.length ≤ 4000

/-- Python str.strip() over ASCII whitespace, written with structural
recursion on the character list so that concrete inputs evaluate inside the
kernel. -/
def pyStrip (s : String) : String :=
  String.mk
    (((s.data.dropWhile Char.isWhitespace).reverse.dropWhile
      Char.isWhitespace).reverse)

/-- What the `chat` route handler answers: a 200 body, or an HTTP error with
its status code and detail. -/
inductive ChatResult where
  | response (body : ChatResponse)
  | httpError (status_code : Nat) (detail : String)
  deriving Repr, DecidableEq

/-- Embedding of the `chat` handler (app/routes/chat.py lines 38-80), given
the generated session id and the validated message: a blank-only message is
answered with HTTPException 400; otherwise the handler prepares the session
and builds `ChatResponse(session_id=..., message=..., status="started")` —
passing `message` (not a declared field) and omitting the required
`message_id`, so the constructor raises a ValidationError, which the
`except Exception` arm of lines 75-80 converts into HTTPException 500. -/
def chat (session_id : String) (message : String) : ChatResult :=
  if pyStrip message = "" then
    ChatResult.httpError 400 "Message cannot be empty"
  else
    match chatResponseInit
        [("session_id", session_id),
         ("message",
          "Chat session started. Connect to WebSocket for streaming results."),
         ("status", "started")] with
    | Except.ok r => ChatResult.response r
    | Except.error _ =>
      ChatResult.httpError 500 "Internal server error during message processing"

/-- The HTTP status code a `POST /chat` request with the given message body
receives: 422 from FastAPI when the body fails the `UserMessage` schema,
otherwise the handler's outcome. -/
def post_chat (session_id : String) (message : String) : Nat :=
  if userMessageValid message then
    match chat session_id message with
    | ChatResult.response _ => 200
    | ChatResult.httpError code _ => code
  else 422

/-- The task status enumeration (app/models/task.py lines 11-16). -/
inductive TaskStatus where
  | pending
  | in_progress
  | completed
  | cancelled
  deriving Repr, DecidableEq

/-- The `Task` model (app/models/task.py lines 19-39): UUIDs modelled by
naturals, datetimes by natural timestamps. -/
structure Task where
  id : Nat
  title : String
  description : Option String
  status : TaskStatus
  created_at : Nat
  updated_at : Nat
  deriving Repr, DecidableEq

/-- Embedding of `TaskService.update_task_status` (task_service.py lines
116-137) over the `_tasks` dict, modelled as a list of tasks keyed by their
`id` field (a dict holds one task per id): when no stored task has the id,
return None and leave the store unchanged; otherwise set that task's `status`,
set its `updated_at` to the current time (`update_timestamp`, explicit `now`
argument here), and return the updated task. -/
def update_task_status (tasks : List Task) (task_id : Nat)
    (status : TaskStatus) (now : Nat) : Option Task × List Task :=
  match tasks.find? (fun t => t.id == task_id) with
  | none => (none, tasks)
  | some t =>
    (some { t with status := status, updated_at := now },
     tasks.map (fun u =>
       if u.id == task_id then { u with status := status, updated_at := now }
       else u))

/-! Helper lemmas shared by the claim theorems. -/

lemma take_action_concat (tools : List Tool) (messages : List Message)
    (content : String) (tool_calls : List ToolCall) :
    take_action tools (messages ++ [Message.ai content tool_calls]) =
      tool_calls.map (fun tc => Message.tool (toolCallResult tools tc) tc.id) := by
  unfold take_action
  rw [List.getLast?_concat]
  cases tool_calls <;> simp

lemma should_continue_concat (messages : List Message) (content : String)
    (tool_calls : List ToolCall) :
    should_continue (messages ++ [Message.ai content tool_calls]) =
      if tool_calls.isEmpty then Route.done else Route.retriever_agent := by
  unfold should_continue
  rw [List.getLast?_concat]

lemma call_llm_eq (llm : LLM) (messages : List Message) :
    call_llm llm messages =
      [Message.ai (llm (withSystemPrompt messages)).content
        (llm (withSystemPrompt messages)).tool_calls] := rfl

lemma runGraph_llm_done (llm : LLM) (tools : List Tool) (fuel : Nat)
    (messages : List Message)
    (h : should_continue (messages ++ call_llm llm messages) = Route.done) :
    runGraph llm tools (fuel + 1) Node.llm messages =
      ⟨[⟨"llm", call_llm llm messages⟩],
        [messages ++ call_llm llm messages], none⟩ := by
  simp only [runGraph]
  rw [h]

lemma runGraph_llm_act (llm : LLM) (tools : List Tool) (fuel : Nat)
    (messages : List Message)
    (h : should_continue (messages ++ call_llm llm messages) =
      Route.retriever_agent) :
    runGraph llm tools (fuel + 1) Node.llm messages =
      ⟨StreamUpdate.mk "llm" (call_llm llm messages) ::
          (runGraph llm tools fuel Node.retriever_agent
            (messages ++ call_llm llm messages)).updates,
        (messages ++ call_llm llm messages) ::
          (runGraph llm tools fuel Node.retriever_agent
            (messages ++ call_llm llm messages)).states,
        (runGraph llm tools fuel Node.retriever_agent
          (messages ++ call_llm llm messages)).error⟩ := by
  simp only [runGraph]
  rw [h]

lemma runGraph_act (llm : LLM) (tools : List Tool) (fuel : Nat)
    (messages : List Message) :
    runGraph llm tools (fuel + 1) Node.retriever_agent messages =
      ⟨StreamUpdate.mk "retriever_agent" (take_action tools messages) ::
          (runGraph llm tools fuel Node.llm
            (messages ++ take_action tools messages)).updates,
        (messages ++ take_action tools messages) ::
          (runGraph llm tools fuel Node.llm
            (messages ++ take_action tools messages)).states,
        (runGraph llm tools fuel Node.llm
          (messages ++ take_action tools messages)).error⟩ := by
  simp only [runGraph]

/-- C1: in an ACT step over an assistant message, every tool call whose name
is not in the registry yields a ToolMessage with the not-found error text,
every tool call whose invocation raises yields a ToolMessage with the
execution-error text (no exception escapes `take_action`), and the graph's
ACT node always continues to the REASON node: the run's error field is
whatever the continued run produces, never an error introduced by the tool
failure itself. -/
theorem tool_failure_contained (llm : LLM) (tools : List Tool)
    (messages : List Message) (content : String) (tool_calls : List ToolCall)
    (fuel : Nat) :
    (∀ tc ∈ tool_calls, findTool tools tc.name = none →
        Message.tool ("Error: Tool '" ++ tc.name ++ "' not found") tc.id ∈
          take_action tools (messages ++ [Message.ai content tool_calls])) ∧
    (∀ tc ∈ tool_calls, ∀ t e, findTool tools tc.name = some t →
        t.invoke tc.args = Except.error e →
        Message.tool ("Error executing " ++ tc.name ++ ": " ++ e) tc.id ∈
          take_action tools (messages ++ [Message.ai content tool_calls])) ∧
    runGraph llm tools (fuel + 1) Node.retriever_agent
        (messages ++ [Message.ai content tool_calls]) =
      ⟨StreamUpdate.mk "retriever_agent"
            (take_action tools (messages ++ [Message.ai content tool_calls])) ::
          (runGraph llm tools fuel Node.llm
            ((messages ++ [Message.ai content tool_calls]) ++
              take_action tools
                (messages ++ [Message.ai content tool_calls]))).updates,
        ((messages ++ [Message.ai content tool_calls]) ++
            take_action tools (messages ++ [Message.ai content tool_calls])) ::
          (runGraph llm tools fuel Node.llm
            ((messages ++ [Message.ai content tool_calls]) ++
              take_action tools
                (messages ++ [Message.ai content tool_calls]))).states,
        (runGraph llm tools fuel Node.llm
          ((messages ++ [Message.ai content tool_calls]) ++
            take_action tools
              (messages ++ [Message.ai content tool_calls]))).error⟩ := by
  refine ⟨?_, ?_, runGraph_act ..⟩
  · intro tc htc hnone
    rw [take_action_concat]
    have hres : toolCallResult tools tc =
        "Error: Tool '" ++ tc.name ++ "' not found" := by
      unfold toolCallResult
      rw [hnone]
    rw [← hres]
    exact List.mem_map_of_mem _ htc
  · intro tc htc t e hsome herr
    rw [take_action_concat]
    have hres : toolCallResult tools tc =
        "Error executing " ++ tc.name ++ ": " ++ e := by
      unfold toolCallResult
      simp only [hsome, herr]
    rw [← hres]
    exact List.mem_map_of_mem _ htc

/-- C2: after a REASON step, `should_continue` routes to the ACT node iff the
assistant message the model produced carries at least one tool call, and to
END iff it carries none; and the compiled graph follows that routing: on
`done` the run stops with no error after yielding the reasoned state, on
`retriever_agent` it continues into the ACT node. -/
theorem reason_routing (llm : LLM) (tools : List Tool)
    (messages : List Message) (fuel : Nat) :
    (should_continue (messages ++ call_llm llm messages) =
        Route.retriever_agent ↔
      (llm (withSystemPrompt messages)).tool_calls ≠ []) ∧
    (should_continue (messages ++ call_llm llm messages) = Route.done ↔
      (llm (withSystemPrompt messages)).tool_calls = []) ∧
    (should_continue (messages ++ call_llm llm messages) = Route.done →
      runGraph llm tools (fuel + 1) Node.llm messages =
        ⟨[⟨"llm", call_llm llm messages⟩],
          [messages ++ call_llm llm messages], none⟩) ∧
    (should_continue (messages ++ call_llm llm messages) =
        Route.retriever_agent →
      runGraph llm tools (fuel + 1) Node.llm messages =
        ⟨StreamUpdate.mk "llm" (call_llm llm messages) ::
            (runGraph llm tools fuel Node.retriever_agent
              (messages ++ call_llm llm messages)).updates,
          (messages ++ call_llm llm messages) ::
            (runGraph llm tools fuel Node.retriever_agent
              (messages ++ call_llm llm messages)).states,
          (runGraph llm tools fuel Node.retriever_agent
            (messages ++ call_llm llm messages)).error⟩) := by
  refine ⟨?_, ?_, fun h => runGraph_llm_done llm tools fuel messages h,
    fun h => runGraph_llm_act llm tools fuel messages h⟩
  · rw [call_llm_eq, should_continue_concat]
    cases h : (llm (withSystemPrompt messages)).tool_calls <;> simp
  · rw [call_llm_eq, should_continue_concat]
    cases h : (llm (withSystemPrompt messages)).tool_calls <;> simp

/-- C3: an ACT step over an assistant message carrying n tool calls produces
exactly n tool-result messages, in invocation order, the i-th carrying the
i-th call's identifier: `take_action` is the in-order map over the calls, its
length is n, and the list of its tool_call_ids equals the list of the calls'
ids. -/
theorem act_results_match_calls (tools : List Tool) (messages : List Message)
    (content : String) (tool_calls : List ToolCall) :
    take_action tools (messages ++ [Message.ai content tool_calls]) =
        tool_calls.map (fun tc => Message.tool (toolCallResult tools tc) tc.id) ∧
    (take_action tools (messages ++ [Message.ai content tool_calls])).length =
        tool_calls.length ∧
    (take_action tools (messages ++ [Message.ai content tool_calls])).map
          Message.toolCallId =
        tool_calls.map (fun tc => some tc.id) := by
  refine ⟨take_action_concat .., ?_, ?_⟩
  · rw [take_action_concat]
    simp
  · rw [take_action_concat]
    simp [Message.toolCallId]

lemma take_action_all_tool (tools : List Tool) (messages : List Message) :
    ∀ m ∈ take_action tools messages, m.isSystem = false := by
  intro m hm
  unfold take_action at hm
  split at hm
  · split at hm
    · exact absurd hm (List.not_mem_nil m)
    · obtain ⟨tc, _, rfl⟩ := List.mem_map.mp hm
      rfl
  · exact absurd hm (List.not_mem_nil m)

lemma call_llm_all_not_system (llm : LLM) (messages : List Message) :
    ∀ m ∈ call_llm llm messages, m.isSystem = false := by
  intro m hm
  rw [call_llm_eq] at hm
  simp only [List.mem_singleton] at hm
  rw [hm]
  rfl

lemma runGraph_no_system (llm : LLM) (tools : List Tool) :
    ∀ fuel node messages, (∀ m ∈ messages, m.isSystem = false) →
      ∀ s ∈ (runGraph llm tools fuel node messages).states,
        ∀ m ∈ s, m.isSystem = false := by
  intro fuel
  induction fuel with
  | zero =>
    intro node messages _ s hs
    simp [runGraph] at hs
  | succ fuel ih =>
    intro node messages hmsg s hs
    cases node with
    | llm =>
      have hstate : ∀ m ∈ messages ++ call_llm llm messages,
          m.isSystem = false := by
        intro m hm
        rcases List.mem_append.mp hm with h | h
        · exact hmsg m h
        · exact call_llm_all_not_system llm messages m h
      cases hsc : should_continue (messages ++ call_llm llm messages) with
      | retriever_agent =>
        rw [runGraph_llm_act llm tools fuel messages hsc] at hs
        rcases List.mem_cons.mp hs with rfl | hs
        · exact hstate
        · exact ih Node.retriever_agent _ hstate s hs
      | done =>
        rw [runGraph_llm_done llm tools fuel messages hsc] at hs
        rcases List.mem_cons.mp hs with rfl | hs
        · exact hstate
        · exact absurd hs (List.not_mem_nil s)
    | retriever_agent =>
      have hstate : ∀ m ∈ messages ++ take_action tools messages,
          m.isSystem = false := by
        intro m hm
        rcases List.mem_append.mp hm with h | h
        · exact hmsg m h
        · exact take_action_all_tool tools messages m h
      rw [runGraph_act llm tools fuel messages] at hs
      rcases List.mem_cons.mp hs with rfl | hs
      · exact hstate
      · exact ih Node.llm _ hstate s hs

/-- C10: `call_llm` prepends the system prompt to the history it shows the
model exactly when the history does not already begin with a SystemMessage;
on a history containing no system message (which every state of a graph run
started from a system-free initial state is, since the REASON and ACT nodes
append only AI and Tool messages and the local insertion is never written
back to the state), the model therefore sees exactly one system message and
it stands in first position. -/
theorem system_prompt_once (llm : LLM) (tools : List Tool)
    (messages : List Message) (fuel : Nat) (node : Node)
    (init : List Message) :
    (messages.head?.map Message.isSystem ≠ some true →
        withSystemPrompt messages = Message.system system_prompt :: messages) ∧
    (messages.head?.map Message.isSystem = some true →
        withSystemPrompt messages = messages) ∧
    ((∀ m ∈ messages, m.isSystem = false) →
        (withSystemPrompt messages).countP Message.isSystem = 1 ∧
        (withSystemPrompt messages).head? =
          some (Message.system system_prompt)) ∧
    ((∀ m ∈ init, m.isSystem = false) →
        ∀ s ∈ (runGraph llm tools fuel node init).states, ∀ m ∈ s,
          m.isSystem = false) := by
  refine ⟨?_, ?_, ?_, fun h => runGraph_no_system llm tools fuel node init h⟩
  · cases messages with
    | nil => intro _; rfl
    | cons m rest =>
      intro h
      have hm : m.isSystem = false := by
        cases hb : m.isSystem
        · rfl
        · exact absurd (by simp [hb]) h
      simp [withSystemPrompt, hm]
  · cases messages with
    | nil => intro h; simp at h
    | cons m rest =>
      intro h
      have hm : m.isSystem = true := by simpa using h
      simp [withSystemPrompt, hm]
  · intro h
    have hw : withSystemPrompt messages =
        Message.system system_prompt :: messages := by
      cases messages with
      | nil => rfl
      | cons m rest => simp [withSystemPrompt, h m (List.mem_cons_self m rest)]
    rw [hw]
    refine ⟨?_, rfl⟩
    have h0 : messages.countP Message.isSystem = 0 :=
      List.countP_eq_zero.mpr (fun m hm => by simp [h m hm])
    simp [List.countP_cons, h0, Message.isSystem]

lemma getLast?_cons_of_ne_nil {α : Type} (a : α) (l : List α) (h : l ≠ []) :
    (a :: l).getLast? = l.getLast? := by
  cases l with
  | nil => exact absurd rfl h
  | cons b bs => simp [List.getLast?]

lemma mem_of_getLast?' {α : Type} {l : List α} {a : α}
    (h : l.getLast? = some a) : a ∈ l := by
  induction l with
  | nil => simp at h
  | cons b bs ih =>
    cases bs with
    | nil =>
      have hb : b = a := by simpa [List.getLast?] using h
      rw [hb]
      exact List.mem_cons_self a []
    | cons c cs =>
      rw [getLast?_cons_of_ne_nil b (c :: cs) (by simp)] at h
      exact List.mem_cons_of_mem b (ih h)

lemma runGraph_updates_node (llm : LLM) (tools : List Tool) :
    ∀ fuel node messages,
      ∀ u ∈ (runGraph llm tools fuel node messages).updates,
        u.node = "llm" ∨ u.node = "retriever_agent" := by
  intro fuel
  induction fuel with
  | zero =>
    intro node messages u hu
    simp [runGraph] at hu
  | succ fuel ih =>
    intro node messages u hu
    cases node with
    | llm =>
      cases hsc : should_continue (messages ++ call_llm llm messages) with
      | done =>
        rw [runGraph_llm_done llm tools fuel messages hsc] at hu
        rcases List.mem_cons.mp hu with rfl | hu
        · exact Or.inl rfl
        · exact absurd hu (List.not_mem_nil u)
      | retriever_agent =>
        rw [runGraph_llm_act llm tools fuel messages hsc] at hu
        rcases List.mem_cons.mp hu with rfl | hu
        · exact Or.inl rfl
        · exact ih Node.retriever_agent _ u hu
    | retriever_agent =>
      rw [runGraph_act llm tools fuel messages] at hu
      rcases List.mem_cons.mp hu with rfl | hu
      · exact Or.inr rfl
      · exact ih Node.llm _ u hu

lemma streamGetMessages_run (llm : LLM) (tools : List Tool) (fuel : Nat)
    (node : Node) (messages : List Message) :
    ∀ u ∈ (runGraph llm tools fuel node messages).updates,
      streamGetMessages u = [] := by
  intro u hu
  rcases runGraph_updates_node llm tools fuel node messages u hu with h | h <;>
    simp [streamGetMessages, h]

lemma finalResultFrames_run (llm : LLM) (tools : List Tool) (fuel : Nat)
    (node : Node) (messages : List Message) :
    finalResultFrames (runGraph llm tools fuel node messages).updates = [] := by
  cases h : (runGraph llm tools fuel node messages).updates.getLast? with
  | none => simp [finalResultFrames, h]
  | some u =>
    have hu : u ∈ (runGraph llm tools fuel node messages).updates :=
      mem_of_getLast?' h
    have hs : streamGetMessages u = [] :=
      streamGetMessages_run llm tools fuel node messages u hu
    simp [finalResultFrames, h, hs]

/-- A concrete model that answers without tool calls, used to instantiate
the claims at a concrete input. -/
def demoLLM : LLM :=
  fun _ => ⟨"You have one pending task: Write report.", []⟩

/-- A concrete model that requests a tool call on every REASON step. -/
def alwaysToolLLM : LLM :=
  fun _ => ⟨"", [⟨"task_list_tool", [("status", "pending")], "call_1"⟩]⟩

/-- C5 is a code bug: `graph.astream` streams in its default "updates" mode,
so every yield is a dict keyed by the node's name, `state.get("messages",
[])` at ws.py lines 185 and 192 is always the empty list, and
`broadcast_final_result` is dead code. For every run, no final_result frame
is ever emitted (and every state_update payload is empty); a run that
completes emits only execution_started, the empty-payload state_update
events, and execution_completed — never the final_result the claim (and the
spec) require. The last conjunct evaluates a completed one-round session:
its full emission is exactly those three frames. -/
theorem no_final_result :
    (∀ llm : LLM, ∀ tools : List Tool, ∀ fuel : Nat, ∀ init : List Message,
        (∀ f ∈ execute_graph llm tools fuel init, f.isFinalResult = false) ∧
        (∀ u ∈ (runGraph llm tools fuel Node.llm init).updates,
            streamGetMessages u = []) ∧
        ((runGraph llm tools fuel Node.llm init).error = none →
          execute_graph llm tools fuel init =
            Frame.event "execution_started" none ::
              ((runGraph llm tools fuel Node.llm init).updates.map
                  stateUpdateFrame
                ++ [Frame.event "execution_completed" none]))) ∧
    execute_graph demoLLM [] 25 [Message.human "List my pending tasks"] =
      [Frame.event "execution_started" none,
       Frame.event "state_update" (some []),
       Frame.event "execution_completed" none] := by
  refine ⟨?_, rfl⟩
  intro llm tools fuel init
  have hfr := finalResultFrames_run llm tools fuel Node.llm init
  refine ⟨?_, streamGetMessages_run llm tools fuel Node.llm init, ?_⟩
  · intro f hf
    simp only [execute_graph] at hf
    cases herr : (runGraph llm tools fuel Node.llm init).error with
    | some e =>
      rw [herr] at hf
      rcases List.mem_cons.mp hf with rfl | hf
      · rfl
      rcases List.mem_append.mp hf with hf | hf
      · obtain ⟨u, _, rfl⟩ := List.mem_map.mp hf
        rfl
      · rw [List.mem_singleton.mp hf]
        rfl
    | none =>
      rw [herr] at hf
      rw [hfr] at hf
      simp only [List.append_nil] at hf
      rcases List.mem_cons.mp hf with rfl | hf
      · rfl
      rcases List.mem_append.mp hf with hf | hf
      · obtain ⟨u, _, rfl⟩ := List.mem_map.mp hf
        rfl
      · rw [List.mem_singleton.mp hf]
        rfl
  · intro herr
    simp only [execute_graph]
    rw [herr, hfr]
    simp

lemma always_tool_error (llm : LLM) (tools : List Tool)
    (hllm : ∀ h, (llm h).tool_calls ≠ []) :
    ∀ fuel node messages,
      (runGraph llm tools fuel node messages).error =
        some recursionErrorMessage := by
  intro fuel
  induction fuel with
  | zero => intro node messages; rfl
  | succ fuel ih =>
    intro node messages
    cases node with
    | llm =>
      have hsc : should_continue (messages ++ call_llm llm messages) =
          Route.retriever_agent := by
        rw [call_llm_eq, should_continue_concat]
        cases hcase : (llm (withSystemPrompt messages)).tool_calls with
        | nil => exact absurd hcase (hllm (withSystemPrompt messages))
        | cons a l => rfl
      rw [runGraph_llm_act llm tools fuel messages hsc]
      exact ih Node.retriever_agent _
    | retriever_agent =>
      rw [runGraph_act llm tools fuel messages]
      exact ih Node.llm _

/-- C4 corrected: neither `build_graph` nor `execute_graph` enforces a
maximum round count of its own or appends a truncation notice. A model that
requests a tool call on every REASON step makes the run exhaust the graph
runtime's recursion limit, whatever that limit is; the resulting exception is
caught by `execute_graph` and surfaced as a terminal error frame, with no
final_result frame in the emission. -/
theorem no_round_limit (llm : LLM) (tools : List Tool) (fuel : Nat)
    (init : List Message) (hllm : ∀ h, (llm h).tool_calls ≠ []) :
    (runGraph llm tools fuel Node.llm init).error =
        some recursionErrorMessage ∧
    execute_graph llm tools fuel init =
      Frame.event "execution_started" none ::
        ((runGraph llm tools fuel Node.llm init).updates.map stateUpdateFrame
          ++ [Frame.error recursionErrorMessage]) ∧
    ∀ f ∈ execute_graph llm tools fuel init, f.isFinalResult = false := by
  have herr := always_tool_error llm tools hllm fuel Node.llm init
  have heq : execute_graph llm tools fuel init =
      Frame.event "execution_started" none ::
        ((runGraph llm tools fuel Node.llm init).updates.map stateUpdateFrame
          ++ [Frame.error recursionErrorMessage]) := by
    simp only [execute_graph]
    rw [herr]
    simp
  refine ⟨herr, heq, ?_⟩
  intro f hf
  rw [heq] at hf
  rcases List.mem_cons.mp hf with rfl | hf
  · rfl
  rcases List.mem_append.mp hf with hf | hf
  · obtain ⟨u, _, rfl⟩ := List.mem_map.mp hf
    rfl
  · rw [List.mem_singleton.mp hf]
    rfl

/-- Witness for the corrected C4 at a concrete input. -/
theorem no_round_limit_witness :
    (runGraph alwaysToolLLM [] 3 Node.llm [Message.human "hi"]).error =
        some recursionErrorMessage ∧
    execute_graph alwaysToolLLM [] 3 [Message.human "hi"] =
      Frame.event "execution_started" none ::
        ((runGraph alwaysToolLLM [] 3 Node.llm
            [Message.human "hi"]).updates.map stateUpdateFrame
          ++ [Frame.error recursionErrorMessage]) ∧
    ∀ f ∈ execute_graph alwaysToolLLM [] 3 [Message.human "hi"],
      f.isFinalResult = false :=
  no_round_limit alwaysToolLLM [] 3 [Message.human "hi"]
    (fun _ => List.cons_ne_nil _ _)

/-- Counterexample to C4 as stated: with the compiled graph's default
recursion limit of 25 and a model that requests a tool call on every REASON
step, the run aborts with the recursion error instead of transitioning to
DONE, the subscriber receives no final_result frame (so no final message at
all, let alone one carrying a truncation notice), and the last frame is an
error frame. -/
theorem no_round_limit_cex :
    (runGraph alwaysToolLLM [] 25 Node.llm
        [Message.human "List my pending tasks"]).error.isSome = true ∧
    (execute_graph alwaysToolLLM [] 25
        [Message.human "List my pending tasks"]).all
        (fun f => !f.isFinalResult) = true ∧
    (execute_graph alwaysToolLLM [] 25
          [Message.human "List my pending tasks"]).getLast?.map
        Frame.isError = some true :=
  ⟨rfl, rfl, rfl⟩

lemma find?_overwrite {α : Type} (d : List (String × α)) (k : String) (v : α) :
    ∀ _ : d.any (fun kv => kv.1 == k) = true,
    (d.map (fun kv => if kv.1 == k then (k, v) else kv)).find?
        (fun kv => kv.1 == k) = some (k, v) := by
  induction d with
  | nil => intro h; simp at h
  | cons kv tl ih =>
    intro h
    simp only [List.map_cons]
    by_cases hk : (kv.1 == k) = true
    · rw [if_pos hk]
      exact List.find?_cons_of_pos _ (by simp)
    · have hb : (kv.1 == k) = false := Bool.eq_false_iff.mpr hk
      have h' : tl.any (fun kv => kv.1 == k) = true := by
        simpa [List.any_cons, hb] using h
      rw [if_neg hk,
        List.find?_cons_of_neg (p := fun kv : String × α => kv.1 == k) _ hk]
      exact ih h'

lemma find?_append_single {α : Type} (d : List (String × α)) (k : String)
    (v : α) (h : d.any (fun kv => kv.1 == k) = false) :
    (d ++ [(k, v)]).find? (fun kv => kv.1 == k) = some (k, v) := by
  induction d with
  | nil => simp
  | cons kv tl ih =>
    simp only [List.any_cons, Bool.or_eq_false_iff] at h
    simp [h.1, ih h.2]

lemma dictGet_dictSet_self {α : Type} (d : List (String × α)) (k : String)
    (v : α) : dictGet (dictSet d k v) k = some v := by
  unfold dictGet dictSet
  by_cases h : d.any (fun kv => kv.1 == k) = true
  · rw [if_pos h, find?_overwrite d k v h]
  · have hb : d.any (fun kv => kv.1 == k) = false := Bool.eq_false_iff.mpr h
    rw [if_neg h, find?_append_single d k v hb]

lemma find?_map_other {α : Type} (d : List (String × α)) (k k' : String)
    (v : α) (hne : (k == k') = false) :
    (d.map (fun kv => if kv.1 == k then (k, v) else kv)).find?
        (fun kv => kv.1 == k') = d.find? (fun kv => kv.1 == k') := by
  induction d with
  | nil => rfl
  | cons kv tl ih =>
    simp only [List.map_cons]
    by_cases hk : (kv.1 == k) = true
    · have hkeq : kv.1 = k := by simpa using hk
      have h2 : (kv.1 == k') = false := by rw [hkeq]; exact hne
      rw [if_pos hk,
        List.find?_cons_of_neg (p := fun kv : String × α => kv.1 == k') _ (by simp [hne]),
        List.find?_cons_of_neg (p := fun kv : String × α => kv.1 == k') _ (by simp [h2])]
      exact ih
    · rw [if_neg hk]
      by_cases hk' : (kv.1 == k') = true
      · rw [List.find?_cons_of_pos (p := fun kv : String × α => kv.1 == k') _ hk',
          List.find?_cons_of_pos (p := fun kv : String × α => kv.1 == k') _ hk']
      · rw [List.find?_cons_of_neg (p := fun kv : String × α => kv.1 == k') _ hk',
          List.find?_cons_of_neg (p := fun kv : String × α => kv.1 == k') _ hk']
        exact ih

lemma find?_append_other {α : Type} (d : List (String × α)) (k k' : String)
    (v : α) (hne : (k == k') = false) :
    (d ++ [(k, v)]).find? (fun kv => kv.1 == k') =
      d.find? (fun kv => kv.1 == k') := by
  induction d with
  | nil =>
    simp only [List.nil_append]
    rw [List.find?_cons_of_neg (p := fun kv : String × α => kv.1 == k') _ (by simp [hne])]
  | cons kv tl ih =>
    simp only [List.cons_append]
    by_cases hk' : (kv.1 == k') = true
    · rw [List.find?_cons_of_pos (p := fun kv : String × α => kv.1 == k') _ hk',
        List.find?_cons_of_pos (p := fun kv : String × α => kv.1 == k') _ hk']
    · rw [List.find?_cons_of_neg (p := fun kv : String × α => kv.1 == k') _ hk',
        List.find?_cons_of_neg (p := fun kv : String × α => kv.1 == k') _ hk']
      exact ih

lemma dictGet_dictSet_other {α : Type} (d : List (String × α))
    (k k' : String) (v : α) (hne : k' ≠ k) :
    dictGet (dictSet d k v) k' = dictGet d k' := by
  have h1 : (k == k') = false := beq_eq_false_iff_ne.mpr (fun e => hne e.symm)
  unfold dictGet dictSet
  by_cases h : d.any (fun kv => kv.1 == k) = true
  · rw [if_pos h, find?_map_other d k k' v h1]
  · rw [if_neg h, find?_append_other d k k' v h1]

/-- C7 corrected: `connect` has no rejection outcome. A second attach on the
same session id is accepted and silently replaces the registered connection
(last-writer-wins): after `connect`, the session's registered connection is
the new websocket, the session store is untouched, and every other session's
registered connection is unchanged. -/
theorem attach_overwrite (m : WSManager) (websocket : Nat) (sid : String) :
    dictGet (m.connect websocket sid).active_connections sid =
        some websocket ∧
    (m.connect websocket sid).sessions = m.sessions ∧
    ∀ k, k ≠ sid →
      dictGet (m.connect websocket sid).active_connections k =
        dictGet m.active_connections k := by
  exact ⟨dictGet_dictSet_self m.active_connections sid websocket, rfl,
    fun k hk => dictGet_dictSet_other m.active_connections sid k websocket hk⟩

/-- Witness for the corrected C7 at a concrete input. -/
theorem attach_overwrite_witness :
    dictGet ((WSManager.mk [("session-1", 1)] []).connect 2
          "session-1").active_connections "session-1" = some 2 ∧
    ((WSManager.mk [("session-1", 1)] []).connect 2 "session-1").sessions =
      (WSManager.mk [("session-1", 1)] [] : WSManager).sessions ∧
    ∀ k, k ≠ "session-1" →
      dictGet ((WSManager.mk [("session-1", 1)] []).connect 2
            "session-1").active_connections k =
        dictGet (WSManager.mk [("session-1", 1)] []
            : WSManager).active_connections k :=
  attach_overwrite (WSManager.mk [("session-1", 1)] []) 2 "session-1"

/-- Counterexample to C7 as stated: both attach attempts on the same session
are accepted — after the first attach websocket 1 is registered, after the
second attach websocket 2 is registered and websocket 1 is gone, with no
rejection outcome anywhere (`connect` returns a manager in every case). -/
theorem attach_overwrite_cex :
    dictGet ((WSManager.mk [] []).connect 1
          "session-1").active_connections "session-1" = some 1 ∧
    dictGet (((WSManager.mk [] []).connect 1 "session-1").connect 2
          "session-1").active_connections "session-1" = some 2 ∧
    (((WSManager.mk [] []).connect 1 "session-1").connect 2
        "session-1").active_connections = [("session-1", 2)] := by
  refine ⟨rfl, rfl, rfl⟩

lemma hasKey_removeKey {α : Type} (d : List (String × α)) (k : String) :
    hasKey (removeKey d k) k = false := by
  unfold hasKey removeKey
  induction d with
  | nil => rfl
  | cons kv tl ih =>
    by_cases hk : (kv.1 == k) = true
    · simp [hk, ih]
    · simp [Bool.eq_false_iff.mpr hk, ih]

/-- C8: deleting a session that exists returns True and a second delete of
the same id then returns False with the store unchanged; deleting an unknown
session id returns False and leaves the manager untouched (`cleanup_session`
is a total function - no exception outcome exists). -/
theorem cleanup_idempotent (m : WSManager) (sid : String) :
    (hasKey m.sessions sid = true →
        (m.cleanup_session sid).1 = true ∧
        ((m.cleanup_session sid).2).cleanup_session sid =
          (false, (m.cleanup_session sid).2)) ∧
    (hasKey m.sessions sid = false →
        m.cleanup_session sid = (false, m)) := by
  constructor
  · intro h
    have h2 : m.cleanup_session sid =
        (true, ⟨removeKey m.active_connections sid,
          removeKey m.sessions sid⟩) := by
      unfold WSManager.cleanup_session
      rw [if_pos h]
    rw [h2]
    refine ⟨rfl, ?_⟩
    unfold WSManager.cleanup_session
    rw [if_neg (by simp [hasKey_removeKey])]
  · intro h
    unfold WSManager.cleanup_session
    rw [if_neg (by simp [h])]

/-- Witness for C8 at a concrete input. -/
theorem cleanup_idempotent_witness :
    (hasKey (WSManager.mk [] [("session-1", "prepared")] : WSManager).sessions
          "session-1" = true →
        ((WSManager.mk [] [("session-1", "prepared")]).cleanup_session
            "session-1").1 = true ∧
        (((WSManager.mk [] [("session-1", "prepared")]).cleanup_session
              "session-1").2).cleanup_session "session-1" =
          (false, ((WSManager.mk [] [("session-1", "prepared")]).cleanup_session
              "session-1").2)) ∧
    (hasKey (WSManager.mk [] [("session-1", "prepared")] : WSManager).sessions
          "session-1" = false →
        (WSManager.mk [] [("session-1", "prepared")]).cleanup_session
            "session-1" =
          (false, WSManager.mk [] [("session-1", "prepared")])) :=
  cleanup_idempotent (WSManager.mk [] [("session-1", "prepared")]) "session-1"

/-- C9: `update_task_status` on a present id returns the stored task with
only its status and updated_at fields replaced; the store keeps its length,
every task whose id differs from the argument is unchanged in place, and the
task with the argument id changes only in status and updated_at; on an
absent id it returns None and the store is exactly unchanged. -/
theorem update_task_status_frame (tasks : List Task) (task_id : Nat)
    (status : TaskStatus) (now : Nat) :
    (tasks.find? (fun t => t.id == task_id) = none →
        update_task_status tasks task_id status now = (none, tasks)) ∧
    (∀ t, tasks.find? (fun t => t.id == task_id) = some t →
        (update_task_status tasks task_id status now).1 =
          some { id := t.id, title := t.title, description := t.description,
                 status := status, created_at := t.created_at,
                 updated_at := now }) ∧
    (update_task_status tasks task_id status now).2.length = tasks.length ∧
    (∀ i, ∀ hi : i < tasks.length, tasks[i].id ≠ task_id →
        (update_task_status tasks task_id status now).2[i]? =
          some tasks[i]) ∧
    (∀ i, ∀ hi : i < tasks.length, tasks[i].id = task_id →
        (update_task_status tasks task_id status now).2[i]? =
          some { id := tasks[i].id, title := tasks[i].title,
                 description := tasks[i].description, status := status,
                 created_at := tasks[i].created_at, updated_at := now }) := by
  cases hf : tasks.find? (fun t => t.id == task_id) with
  | none =>
    have h2 : update_task_status tasks task_id status now = (none, tasks) := by
      unfold update_task_status
      rw [hf]
    refine ⟨fun _ => h2, ?_, ?_, ?_, ?_⟩
    · intro t ht
      exact absurd ht (by simp)
    · rw [h2]
    · intro i hi _
      rw [h2]
      exact List.getElem?_eq_getElem hi
    · intro i hi he
      have hmem := List.find?_eq_none.mp hf tasks[i] (List.getElem_mem hi)
      exact absurd (by simp [he]) hmem
  | some t =>
    have h2 : update_task_status tasks task_id status now =
        (some { t with status := status, updated_at := now },
         tasks.map (fun u =>
           if u.id == task_id then { u with status := status, updated_at := now }
           else u)) := by
      unfold update_task_status
      rw [hf]
    refine ⟨?_, ?_, ?_, ?_, ?_⟩
    · intro hnone
      exact absurd hnone (by simp)
    · intro t' ht'
      have heq : t = t' := by simpa using ht'
      subst heq
      rw [h2]
    · rw [h2]
      simp
    · intro i hi hne
      have hb : (tasks[i].id == task_id) = false := by simp [hne]
      rw [h2]
      simp only [List.getElem?_map, List.getElem?_eq_getElem hi,
        Option.map_some']
      rw [if_neg (by simp [hb])]
    · intro i hi he
      have hb : (tasks[i].id == task_id) = true := by simp [he]
      rw [h2]
      simp only [List.getElem?_map, List.getElem?_eq_getElem hi,
        Option.map_some']
      rw [if_pos hb]

/-- Witness for C9 at a concrete input: a two-task store, updating the
present id 1. -/
theorem update_task_status_frame_witness :
    (([⟨1, "Write report", none, TaskStatus.pending, 10, 10⟩,
       ⟨2, "Ship release", none, TaskStatus.in_progress, 11, 11⟩]
        : List Task).find? (fun t => t.id == 1) =
      some ⟨1, "Write report", none, TaskStatus.pending, 10, 10⟩) ∧
    (update_task_status
        [⟨1, "Write report", none, TaskStatus.pending, 10, 10⟩,
         ⟨2, "Ship release", none, TaskStatus.in_progress, 11, 11⟩]
        1 TaskStatus.completed 42).1 =
      some ⟨1, "Write report", none, TaskStatus.completed, 10, 42⟩ ∧
    (update_task_status
        [⟨1, "Write report", none, TaskStatus.pending, 10, 10⟩,
         ⟨2, "Ship release", none, TaskStatus.in_progress, 11, 11⟩]
        1 TaskStatus.completed 42).2 =
      [⟨1, "Write report", none, TaskStatus.completed, 10, 42⟩,
       ⟨2, "Ship release", none, TaskStatus.in_progress, 11, 11⟩] := by
  refine ⟨rfl, ?_, rfl⟩
  exact (update_task_status_frame
      [⟨1, "Write report", none, TaskStatus.pending, 10, 10⟩,
       ⟨2, "Ship release", none, TaskStatus.in_progress, 11, 11⟩]
      1 TaskStatus.completed 42).2.1
    ⟨1, "Write report", none, TaskStatus.pending, 10, 10⟩ rfl

/-- C6 is a code bug: the handler builds
`ChatResponse(session_id=..., message=..., status="started")` while the
schema requires `message_id`, so the happy path raises a ValidationError and
is answered 500 instead of 200; an empty message is rejected by the request
schema with 422 (not 400); only a whitespace-only message is answered 400 as
the spec says. -/
theorem chat_endpoint_500 :
    post_chat "session-1" "hello" = 500 ∧
    chat "session-1" "hello" =
      ChatResult.httpError 500
        "Internal server error during message processing" ∧
    post_chat "session-1" "" = 422 ∧
    post_chat "session-1" "   " = 400 := by
  refine ⟨rfl, rfl, rfl, rfl⟩

end TaskRag
